import Mathlib

/-!
Verification of the researchers_friend repository: a Django project whose
behaviour is (a) declarative model-schema definitions, (b) declarative
admin-site configuration, (c) one string-formatting method
(`Place.__str__`), and (d) two constructor overrides that assign the
`Activity.typecode` discriminator.

The embedding below transcribes the schema declarations from
`src/researcher/models/*.py` and `src/researcher/admin.py`, and models
the relevant Django framework semantics (the metaclass that collects
`Field` class attributes, `Model.__init__`, form `choices` validation,
required-field validation, and storage-engine referential integrity with
NOT NULL columns and cascading deletes) as executable Lean functions.
-/

namespace ResearchersFriend

/-! ## Django field declarations (shallow embedding of the schema) -/

/-- The kind of a Django model field, as written in the source. -/
inductive FieldKind where
  | autoField
  | charField
  | textField
  | dateField
  | booleanField
  | positiveSmallIntegerField
  | integerField
  | fileField
  | foreignKey (target : String)
  | oneToOneField (target : String)
  | manyToManyField (target : String)
  deriving DecidableEq, Repr

/-- One Django field declaration: kind plus the schema options used in
this repository.  `blank` and `null` default to `false` and `editable`
to `true`, exactly as in Django. -/
structure FieldDecl where
  kind : FieldKind
  blank : Bool := false
  null : Bool := false
  editable : Bool := true
  choices : List (String × String) := []
  defaultVal : Option String := none
  deriving DecidableEq, Repr

/-- A class-body binding in a Python model class: either a genuine
`Field` instance, or (when the source line ends in a stray trailing
comma) a tuple containing field instances, which the Django metaclass
does not register as a model field. -/
inductive PyBinding where
  | modelField (f : FieldDecl)
  | tupleOfFields (fs : List FieldDecl)
  deriving DecidableEq, Repr

/-- A named class attribute of a model class body. -/
structure ClassAttr where
  name : String
  binding : PyBinding
  deriving DecidableEq, Repr

/-- Django's `ModelBase` metaclass keeps exactly the class attributes
bound to `Field` instances as model fields; attributes bound to tuples
stay plain class attributes and produce no database column. -/
def djangoFields (body : List ClassAttr) : List (String × FieldDecl) :=
  body.filterMap fun a =>
    match a.binding with
    | .modelField f => some (a.name, f)
    | .tupleOfFields _ => none

/-! ## Choice tuples (`src/researcher/models/conclusions.py`, lines 25-36) -/

def ASSERTION_SUBJECT_TYPES : List (String × String) :=
  [("P", "Persona"), ("E", "Event"), ("C", "Characteristic"), ("G", "Group")]

def SORT_ORDER_CHOICES : List (String × String) :=
  [("A", "Ascending"), ("D", "Descending"), ("N", "None")]

/-! ## Transcribed model class bodies

Only the models the claims are about are transcribed field-for-field;
the trailing commas in `Assertion` and `Representation` are transcribed
as `tupleOfFields` bindings, since that is what the Python source
evaluates them to. -/

/-- Class body of `Assertion` (conclusions.py lines 111-143).  The
declarations of `subject1_type`, `subject1`, `subject2_type`,
`subject2` and `value_role` end in trailing commas in the source, so
each binds a one-element tuple rather than a field. -/
def assertionClassBody : List ClassAttr :=
  [ { name := "surety_scheme_part",
      binding := .modelField { kind := .foreignKey "SuretySchemePart", blank := true } },
    { name := "researcher",
      binding := .modelField { kind := .foreignKey "Researcher" } },
    { name := "source",
      binding := .modelField { kind := .foreignKey "Source", blank := true } },
    { name := "subject1_type",
      binding := .tupleOfFields [{ kind := .charField, choices := ASSERTION_SUBJECT_TYPES }] },
    { name := "subject1",
      binding := .tupleOfFields [{ kind := .integerField }] },
    { name := "subject2_type",
      binding := .tupleOfFields [{ kind := .charField, choices := ASSERTION_SUBJECT_TYPES }] },
    { name := "subject2",
      binding := .tupleOfFields [{ kind := .integerField }] },
    { name := "value_role",
      binding := .tupleOfFields [{ kind := .charField, blank := true }] },
    { name := "rationale",
      binding := .modelField { kind := .textField } },
    { name := "disproved",
      binding := .modelField { kind := .booleanField, defaultVal := some "False" } } ]

/-- Class body of `Representation` (evidence.py lines 433-451).  The
declaration of `content` ends in a trailing comma, so it binds a
one-element tuple rather than a field. -/
def representationClassBody : List ClassAttr :=
  [ { name := "source",
      binding := .modelField { kind := .foreignKey "Source" } },
    { name := "representation_type",
      binding := .modelField { kind := .foreignKey "RepresentationType" } },
    { name := "physical_file_code",
      binding := .modelField { kind := .charField, blank := true } },
    { name := "medium",
      binding := .modelField { kind := .charField } },
    { name := "content",
      binding := .tupleOfFields [{ kind := .fileField }] },
    { name := "comments",
      binding := .modelField { kind := .textField, blank := true } } ]

/-- Field `Source.higher_source` (evidence.py lines 141-145): a self-referential
foreign key declared with `blank=True` and nothing else, so `null` keeps
its Django default `False`. -/
def sourceHigherSourceDecl : FieldDecl :=
  { kind := .foreignKey "self", blank := true }

/-- Field `Search.source` (administrative.py lines 487-491): a foreign key to
`RepositorySource` with neither `blank=True` nor `null=True`. -/
def searchSourceDecl : FieldDecl :=
  { kind := .foreignKey "RepositorySource" }

/-- Field `Search.repository` (administrative.py lines 492-496): a foreign key
to `RepositorySource` with neither `blank=True` nor `null=True`. -/
def searchRepositoryDecl : FieldDecl :=
  { kind := .foreignKey "RepositorySource" }

/-- Field `Place.sort_order` (conclusions.py lines 719-724). -/
def placeSortOrderDecl : FieldDecl :=
  { kind := .charField, choices := SORT_ORDER_CHOICES, defaultVal := some "A" }

/-- Field `Characteristic.sort_order` (conclusions.py lines 411-415). -/
def characteristicSortOrderDecl : FieldDecl :=
  { kind := .charField, choices := SORT_ORDER_CHOICES }

/-- Field `GroupType.sort_order` (conclusions.py lines 611-616). -/
def groupTypeSortOrderDecl : FieldDecl :=
  { kind := .charField, choices := SORT_ORDER_CHOICES, defaultVal := some "A" }

/-! ## `Place.__str__` (conclusions.py lines 726-741)

The method builds `orderby = 'sequence_number'`, prepends `'-'` exactly
when `self.sort_order == 'D'`, orders the related `PlacePart` rows by
that key, and joins their names with `", "`. -/

/-- The data of a `PlacePart` row that `Place.__str__` reads. -/
structure PlacePartRow where
  name : String
  sequence_number : Nat
  deriving DecidableEq, Repr

/-- Stable insertion of a row into a list sorted by the `le` comparison. -/
def insertSorted (le : PlacePartRow → PlacePartRow → Bool) (x : PlacePartRow) :
    List PlacePartRow → List PlacePartRow
  | [] => [x]
  | y :: ys => if le y x then y :: insertSorted le x ys else x :: y :: ys

/-- Stable sort of `PlacePart` rows by the `le` comparison, modelling the
database `ORDER BY` issued by the Django queryset. -/
def sortRows (le : PlacePartRow → PlacePartRow → Bool) : List PlacePartRow → List PlacePartRow
  | [] => []
  | x :: xs => insertSorted le x (sortRows le xs)

/-- The queryset `placepart_set.order_by(orderby)`: ascending by `sequence_number`,
or descending when the key is prefixed with `'-'`. -/
def orderPlaceParts (descending : Bool) (rows : List PlacePartRow) : List PlacePartRow :=
  if descending then
    sortRows (fun a b => b.sequence_number ≤ a.sequence_number) rows
  else
    sortRows (fun a b => a.sequence_number ≤ b.sequence_number) rows

/-- A `Place` as read by `__str__`: its `sort_order` value and its child
`PlacePart` rows in storage order. -/
structure PlaceRow where
  sort_order : String
  placepart_set : List PlacePartRow
  deriving DecidableEq, Repr

/-- Method `Place.__str__`: order the place parts (descending exactly when
`sort_order == 'D'`, ascending otherwise) and join their names. -/
def placeStr (p : PlaceRow) : String :=
  let descending := p.sort_order = "D"
  let ordered := orderPlaceParts descending p.placepart_set
  String.intercalate ", " (ordered.map PlacePartRow.name)

/-! ## `Model.__init__` and the `typecode` overrides
(administrative.py lines 361-375, 421-424, 499-502)

`AdministrativeTask.__init__` executes `self.typecode = 'A'` and then
calls `super().__init__(*args, **kwargs)`; `Search.__init__` does the
same with `'S'`.  Django's `Model.__init__` then iterates over every
concrete field and assigns it the supplied keyword value or, when the
field is absent from the keyword arguments, `field.get_default()` —
which for a `CharField` with no `default` option is the empty string.
Each such assignment is a plain `setattr` on the instance, so it
replaces any value the subclass assigned beforehand. -/

/-- A Python attribute value as used by these models. -/
inductive PyVal where
  | pyNone
  | str (s : String)
  deriving DecidableEq, Repr

/-- The instance attribute dictionary, as an association list. -/
abbrev Attrs := List (String × PyVal)

/-- Python `setattr(self, name, val)`. -/
def setattr (a : Attrs) (name : String) (v : PyVal) : Attrs :=
  (name, v) :: a.filter (fun kv => kv.1 ≠ name)

/-- Python `getattr(self, name)`, `none` when the attribute was never set. -/
def getattr (a : Attrs) (name : String) : Option PyVal :=
  (a.find? (fun kv => kv.1 = name)).map Prod.snd

/-- Django `Field.get_default()`: the declared `default` when present, the
empty string for character/text fields (whose empty_strings_allowed is
true and which are not null), and `None` otherwise. -/
def fieldGetDefault (f : FieldDecl) : PyVal :=
  match f.defaultVal with
  | some d => .str d
  | none =>
    match f.kind with
    | .charField => .str ""
    | .textField => .str ""
    | _ => .pyNone

/-- Django `Model.__init__(**kwargs)` restricted to attribute effects: every
concrete field of the model is assigned the keyword value when one was
passed and the field default otherwise, in declaration order, on top of
whatever attributes `self` already carries. -/
def djangoModelInit (fields : List (String × FieldDecl))
    (kwargs : List (String × PyVal)) (self : Attrs) : Attrs :=
  fields.foldl
    (fun acc nf =>
      match kwargs.find? (fun kv => kv.1 = nf.1) with
      | some kv => setattr acc nf.1 kv.2
      | none => setattr acc nf.1 (fieldGetDefault nf.2))
    self

/-- The concrete fields of `Activity` (administrative.py lines 361-375),
in declaration order.  `typecode` is a `CharField` with `choices` and
`editable=False` and no `default`. -/
def activityFields : List (String × FieldDecl) :=
  [ ("researcher", { kind := .foreignKey "Researcher" }),
    ("scheduled_date", { kind := .dateField }),
    ("completed_date", { kind := .dateField }),
    ("typecode",
      { kind := .charField, editable := false,
        choices := [("A", "Administrative Task"), ("S", "Search")] }),
    ("status", { kind := .charField }),
    ("description", { kind := .textField }),
    ("priority", { kind := .positiveSmallIntegerField }),
    ("comments", { kind := .textField, blank := true }) ]

/-- Method `AdministrativeTask.__init__`: assign `typecode := 'A'`, then run the
base `Model.__init__` over the inherited concrete fields. -/
def administrativeTaskInit (kwargs : List (String × PyVal)) : Attrs :=
  djangoModelInit activityFields kwargs (setattr [] "typecode" (.str "A"))

/-- Method `Search.__init__`: assign `typecode := 'S'`, then run the base
`Model.__init__` over the inherited concrete fields. -/
def searchInit (kwargs : List (String × PyVal)) : Attrs :=
  djangoModelInit activityFields kwargs (setattr [] "typecode" (.str "S"))

/-! ## The relational store

A generic embedding of the storage engine the schema delegates to:
rows tagged with their table, carrying their foreign-key slots.  An
insert is accepted only when the row's id is fresh and every foreign-key
slot is satisfied — a `NULL` value requires the column to be nullable,
and a non-`NULL` value must identify a row existing once the statement
completes (so a row may reference itself, as the standard immediate
foreign-key check permits).  A delete removes the row and then cascades:
any row left referencing a removed row is removed in turn, which is
Django's default `on_delete=CASCADE` behaviour. -/

/-- One foreign-key slot of a stored row: the field name, the target
table, whether the column is nullable (the field's `null` option), and
the stored value. -/
structure FKSlot where
  field : String
  targetTable : String
  nullable : Bool
  target : Option Nat
  deriving DecidableEq, Repr

/-- A stored row: its table, primary key, and foreign-key slots. -/
structure Row where
  table : String
  id : Nat
  fks : List FKSlot
  deriving DecidableEq, Repr

/-- The store: the list of rows. -/
abbrev DB := List Row

/-- Does a row with the given table and id exist? -/
def rowExists (db : DB) (t : String) (i : Nat) : Bool :=
  db.any (fun r => r.table = t && r.id = i)

/-- Is a foreign-key slot satisfied in the given store? -/
def fkSatisfied (db : DB) (fk : FKSlot) : Bool :=
  match fk.target with
  | none => fk.nullable
  | some i => rowExists db fk.targetTable i

/-- Are all foreign-key slots of a row satisfied in the given store? -/
def rowSatisfied (db : DB) (r : Row) : Bool :=
  r.fks.all (fkSatisfied db)

/-- Referential integrity of a store: every foreign-key value of every
row refers to an existing row (and `NULL` appears only in nullable
columns). -/
def Integrity (db : DB) : Prop :=
  ∀ r ∈ db, rowSatisfied db r = true

instance : DecidablePred Integrity := fun db =>
  List.decidableBAll (fun r => rowSatisfied db r = true) db

/-- Insert a row: rejected (`none`) when the id collides or some
foreign-key slot is unsatisfied in the post-insert store. -/
def insertRow (db : DB) (r : Row) : Option DB :=
  if rowExists db r.table r.id then none
  else if rowSatisfied (r :: db) r then some (r :: db) else none

/-- Cascade step, fuelled: repeatedly drop the rows whose foreign keys
are no longer satisfied, until none are left to drop.  Each iteration
that drops anything strictly shrinks the store, so `db.length` fuel
always reaches the fixpoint. -/
def pruneFuel : Nat → DB → DB
  | 0, db => db
  | fuel + 1, db =>
    if (db.filter (fun r => rowSatisfied db r)).length < db.length then
      pruneFuel fuel (db.filter (fun r => rowSatisfied db r))
    else db

/-- Cascade step: drop dangling rows until a fixpoint is reached. -/
def prune (db : DB) : DB :=
  pruneFuel db.length db

/-- Delete a row and cascade, as `on_delete=CASCADE` does. -/
def deleteRow (db : DB) (t : String) (i : Nat) : DB :=
  prune (db.filter (fun r => !(r.table = t && r.id = i)))

/-- One storage operation: a checked insert or a cascading delete. -/
inductive DBOp where
  | ins (r : Row)
  | del (t : String) (i : Nat)

/-- Apply one operation; `none` means the operation was rejected. -/
def applyOp (db : DB) : DBOp → Option DB
  | .ins r => insertRow db r
  | .del t i => some (deleteRow db t i)

/-- The stored states reachable from the empty store through accepted
operations. -/
inductive Reachable : DB → Prop
  | empty : Reachable []
  | step {db db' : DB} {op : DBOp} :
      Reachable db → applyOp db op = some db' → Reachable db'

/-! ## The Researcher↔Project many-to-many relation
(administrative.py lines 143-148 and 160-192)

`Project.researchers` is a `ManyToManyField` through `ResearcherProject`;
listing a project's researchers traverses the `ResearcherProject` rows
whose `project` foreign key is the project, and listing a researcher's
projects traverses the rows whose `researcher` foreign key is the
researcher. -/

/-- A `ResearcherProject` row: two foreign keys and a role text. -/
structure ResearcherProjectRow where
  researcher : Nat
  project : Nat
  role : String
  deriving DecidableEq, Repr

/-- Listing `project.researchers.all()`: the researchers of the
`ResearcherProject` rows whose `project` key matches. -/
def projectResearchers (links : List ResearcherProjectRow) (p : Nat) : List Nat :=
  (links.filter (fun l => l.project = p)).map ResearcherProjectRow.researcher

/-- Listing `researcher.project_set.all()`: the projects of the
`ResearcherProject` rows whose `researcher` key matches. -/
def researcherProjects (links : List ResearcherProjectRow) (r : Nat) : List Nat :=
  (links.filter (fun l => l.researcher = r)).map ResearcherProjectRow.project

/-- Add (researcher, project) pairs through the join entity to an
initially empty store: one `ResearcherProject` row per pair. -/
def addPairs (pairs : List (Nat × Nat)) : List ResearcherProjectRow :=
  pairs.map (fun q => { researcher := q.1, project := q.2, role := "" })

/-! ## Form validation of choice fields and required fields

Django's model forms validate a `CharField` with `choices` through a
choice form field: the submitted value must be one of the declared
choice keys (an empty submission is additionally tolerated only for a
`blank=True` field).  A foreign-key form field is required exactly when
the model field is not `blank`; submitting it empty fails validation. -/

/-- Form-level validation of a submitted value against a `CharField`
with `choices`: accepted when the value is a declared key, or when it is
empty and the field allows blank. -/
def choiceFieldCleanOk (f : FieldDecl) (v : String) : Bool :=
  (f.blank && v = "") || f.choices.any (fun c => c.1 = v)

/-- Form-level validation of a submitted foreign-key value: an empty
submission is accepted only for a `blank=True` field. -/
def fkFieldCleanOk (f : FieldDecl) (v : Option Nat) : Bool :=
  match v with
  | none => f.blank
  | some _ => true

/-- The submitted foreign-key values of a `Search` form. -/
structure SearchFormData where
  source : Option Nat
  repository : Option Nat
  deriving DecidableEq, Repr

/-- Validation of the two `RepositorySource` references on the `Search`
form, against their field declarations. -/
def searchFormCleanOk (d : SearchFormData) : Bool :=
  fkFieldCleanOk searchSourceDecl d.source &&
    fkFieldCleanOk searchRepositoryDecl d.repository

/-! ## Admin-site configuration (admin.py) -/

/-- An inline class of the admin site: the model whose rows it edits. -/
structure InlineDecl where
  model : String
  extra : Nat
  deriving DecidableEq, Repr

/-- Inline `ResearcherProjectInline` (admin.py lines 20-25). -/
def ResearcherProjectInline : InlineDecl :=
  { model := "ResearcherProject", extra := 0 }

/-- Inline `SuretySchemePartInline` (admin.py lines 42-47). -/
def SuretySchemePartInline : InlineDecl :=
  { model := "SuretySchemePart", extra := 1 }

/-- List `ResearcherAdmin.inlines` (admin.py lines 28-32). -/
def ResearcherAdmin_inlines : List InlineDecl := [ResearcherProjectInline]

/-- List `ProjectAdmin.inlines` (admin.py lines 35-39). -/
def ProjectAdmin_inlines : List InlineDecl := [ResearcherProjectInline]

/-- List `SuretySchemeAdmin.inlines` (admin.py lines 50-54). -/
def SuretySchemeAdmin_inlines : List InlineDecl := [SuretySchemePartInline]

/-! ## Store lemmas -/

theorem rowExists_mono {db : DB} {r : Row} {t : String} {i : Nat}
    (h : rowExists db t i = true) : rowExists (r :: db) t i = true := by
  unfold rowExists at h ⊢
  rw [List.any_cons, h, Bool.or_true]

theorem fkSatisfied_mono {db : DB} {r : Row} {fk : FKSlot}
    (h : fkSatisfied db fk = true) : fkSatisfied (r :: db) fk = true := by
  unfold fkSatisfied at h ⊢
  cases htgt : fk.target with
  | none => rw [htgt] at h; exact h
  | some i => rw [htgt] at h; exact rowExists_mono h

theorem rowSatisfied_mono {db : DB} {r x : Row}
    (h : rowSatisfied db x = true) : rowSatisfied (r :: db) x = true := by
  unfold rowSatisfied at h ⊢
  rw [List.all_eq_true] at h ⊢
  intro fk hfk
  exact fkSatisfied_mono (h fk hfk)

theorem insertRow_integrity {db db' : DB} {r : Row}
    (hint : Integrity db) (h : insertRow db r = some db') : Integrity db' := by
  unfold insertRow at h
  split at h
  · exact absurd h (by simp)
  · split at h
    · next hsat =>
      cases h
      intro x hx
      rcases List.mem_cons.mp hx with rfl | hx
      · exact hsat
      · exact rowSatisfied_mono (hint x hx)
    · exact absurd h (by simp)

theorem filter_length_eq_forall {α : Type} (p : α → Bool) (l : List α)
    (h : (l.filter p).length = l.length) : ∀ x ∈ l, p x = true := by
  induction l with
  | nil => intro x hx; cases hx
  | cons a t ih =>
    intro x hx
    by_cases hpa : p a = true
    · rw [List.filter_cons, if_pos hpa] at h
      simp only [List.length_cons, Nat.succ_inj] at h
      rcases List.mem_cons.mp hx with rfl | hx
      · exact hpa
      · exact ih h x hx
    · exfalso
      rw [List.filter_cons, if_neg hpa] at h
      have := List.length_filter_le p t
      simp only [List.length_cons] at h
      omega

theorem pruneFuel_integrity (fuel : Nat) :
    ∀ db : DB, db.length ≤ fuel → Integrity (pruneFuel fuel db) := by
  induction fuel with
  | zero =>
    intro db hdb
    have : db = [] := List.eq_nil_of_length_eq_zero (Nat.le_zero.mp hdb)
    subst this
    intro r hr; cases hr
  | succ fuel ih =>
    intro db hdb
    unfold pruneFuel
    split
    · next hlt => exact ih _ (by omega)
    · next hge =>
      intro r hr
      have hle := List.length_filter_le (fun r => rowSatisfied db r) db
      have heq : (db.filter (fun r => rowSatisfied db r)).length = db.length := by omega
      exact filter_length_eq_forall _ db heq r hr

theorem prune_integrity (db : DB) : Integrity (prune db) :=
  pruneFuel_integrity db.length db (Nat.le_refl _)

theorem insertRow_rejects {db : DB} {r : Row} {fk : FKSlot} {i : Nat}
    (hfk : fk ∈ r.fks) (ht : fk.target = some i)
    (hne : rowExists (r :: db) fk.targetTable i = false) : insertRow db r = none := by
  have hsat : rowSatisfied (r :: db) r ≠ true := by
    intro hall
    rw [rowSatisfied, List.all_eq_true] at hall
    have hone := hall fk hfk
    unfold fkSatisfied at hone
    rw [ht] at hone
    have hone2 : rowExists (r :: db) fk.targetTable i = true := hone
    rw [hne] at hone2
    exact Bool.false_ne_true hone2
  unfold insertRow
  by_cases hex : rowExists db r.table r.id = true
  · rw [if_pos hex]
  · rw [if_neg hex, if_neg hsat]

theorem reachable_integrity : ∀ {db : DB}, Reachable db → Integrity db := by
  intro db h
  induction h with
  | empty => intro r hr; cases hr
  | @step db1 db2 op hre happ ih =>
    cases op with
    | ins r => exact insertRow_integrity ih happ
    | del t i =>
      simp only [applyOp, Option.some_inj] at happ
      subst happ
      exact prune_integrity _

/-! ## Claim theorems -/

/-- C1 (counterexample): the claim is false for sort order `'N'`.  A
Place whose parts are stored as County (seq 2) then State (seq 1) and
whose `sort_order` is `'N'` renders as `"State, County"` — the method
only special-cases `'D'`, so `'N'` still sorts ascending — and not in
storage order `"County, State"` as the claim states. -/
theorem place_str_none_not_storage_order :
    placeStr { sort_order := "N",
               placepart_set := [{ name := "County", sequence_number := 2 },
                                 { name := "State", sequence_number := 1 }] }
        = "State, County" ∧
    placeStr { sort_order := "N",
               placepart_set := [{ name := "County", sequence_number := 2 },
                                 { name := "State", sequence_number := 1 }] }
        ≠ "County, State" := by
  constructor
  · rfl
  · decide

/-- C1 (amended): for every Place whose child PlacePart rows are
County with sequence number 2 and State with sequence number 1, the
display string is `"State, County"` for sort order `'A'`,
`"County, State"` for `'D'`, and — since the method only special-cases
`'D'` — again the ascending `"State, County"` for `'N'`, whatever the
storage order of the two rows. -/
theorem place_str_county_state (parts : List PlacePartRow)
    (h : parts = [{ name := "County", sequence_number := 2 },
                  { name := "State", sequence_number := 1 }] ∨
         parts = [{ name := "State", sequence_number := 1 },
                  { name := "County", sequence_number := 2 }]) :
    placeStr { sort_order := "A", placepart_set := parts } = "State, County" ∧
    placeStr { sort_order := "D", placepart_set := parts } = "County, State" ∧
    placeStr { sort_order := "N", placepart_set := parts } = "State, County" := by
  rcases h with h | h <;> subst h <;> exact ⟨rfl, rfl, rfl⟩

/-- C1 (witness): the amended theorem applied to the storage order
County-then-State. -/
theorem place_str_county_state_witness :
    placeStr { sort_order := "A",
               placepart_set := [{ name := "County", sequence_number := 2 },
                                 { name := "State", sequence_number := 1 }] }
        = "State, County" ∧
    placeStr { sort_order := "D",
               placepart_set := [{ name := "County", sequence_number := 2 },
                                 { name := "State", sequence_number := 1 }] }
        = "County, State" ∧
    placeStr { sort_order := "N",
               placepart_set := [{ name := "County", sequence_number := 2 },
                                 { name := "State", sequence_number := 1 }] }
        = "State, County" :=
  place_str_county_state _ (Or.inl rfl)

/-- C2 (code evaluated at the failing input): constructing an
`AdministrativeTask` or a `Search` with no constructor arguments leaves
`typecode` equal to the empty string, not `'A'` or `'S'`: the subclass
assigns the discriminator before calling the base initializer, and
`Model.__init__` then reassigns every concrete field to its keyword
value or default — for `typecode`, the `CharField` default `""`. -/
theorem typecode_overwritten_by_base_init :
    getattr (administrativeTaskInit []) "typecode" = some (.str "") ∧
    getattr (searchInit []) "typecode" = some (.str "") ∧
    PyVal.str "" ≠ PyVal.str "A" ∧
    PyVal.str "" ≠ PyVal.str "S" := by
  exact ⟨rfl, rfl, by decide, by decide⟩

/-- C3 (code evaluated at the failing input): the trailing commas in the
`Assertion` class body bind `subject1_type`, `subject1`,
`subject2_type`, `subject2` and `value_role` as tuples, so the model's
fields are exactly `surety_scheme_part`, `researcher`, `source`,
`rationale` and `disproved`, and no Assertion record carries any subject
designation. -/
theorem assertion_subject_fields_missing :
    (djangoFields assertionClassBody).map Prod.fst =
      ["surety_scheme_part", "researcher", "source", "rationale", "disproved"] ∧
    "subject1_type" ∉ (djangoFields assertionClassBody).map Prod.fst ∧
    "subject1" ∉ (djangoFields assertionClassBody).map Prod.fst ∧
    "subject2_type" ∉ (djangoFields assertionClassBody).map Prod.fst ∧
    "subject2" ∉ (djangoFields assertionClassBody).map Prod.fst ∧
    ClassAttr.mk "subject1_type"
        (.tupleOfFields [{ kind := .charField, choices := ASSERTION_SUBJECT_TYPES }])
      ∈ assertionClassBody := by
  refine ⟨rfl, ?_, ?_, ?_, ?_, ?_⟩ <;> decide

/-- C4 (code evaluated at the failing input): `higher_source` is
declared `blank=True` but keeps Django's default `null=False`, so the
column is NOT NULL and saving a Source with no higher source — here into
a store holding the Place and Researcher its other foreign keys need —
is rejected.  The second conjunct shows the cycle half of the claim: a
stored state in which a Source is its own `higher_source` satisfies
every schema constraint. -/
theorem source_no_higher_source_rejected :
    insertRow [{ table := "Researcher", id := 1, fks := [] },
               { table := "Place", id := 1, fks := [] }]
        { table := "Source", id := 5,
          fks := [ { field := "higher_source", targetTable := "Source",
                     nullable := sourceHigherSourceDecl.null, target := none },
                   { field := "subject_place", targetTable := "Place",
                     nullable := false, target := some 1 },
                   { field := "jurisdiction_place", targetTable := "Place",
                     nullable := false, target := some 1 },
                   { field := "researcher", targetTable := "Researcher",
                     nullable := false, target := some 1 } ] } = none ∧
    sourceHigherSourceDecl.blank = true ∧
    Integrity [{ table := "Source", id := 7,
                 fks := [ { field := "higher_source", targetTable := "Source",
                            nullable := sourceHigherSourceDecl.null, target := some 7 },
                          { field := "subject_place", targetTable := "Place",
                            nullable := false, target := some 1 },
                          { field := "jurisdiction_place", targetTable := "Place",
                            nullable := false, target := some 1 },
                          { field := "researcher", targetTable := "Researcher",
                            nullable := false, target := some 1 } ] },
               { table := "Researcher", id := 1, fks := [] },
               { table := "Place", id := 1, fks := [] }] := by
  refine ⟨by decide, by decide, by decide⟩

/-- C5: a save whose foreign-key value identifies no existing target row
is rejected, and consequently every stored state reachable from the
empty store through accepted inserts and cascading deletes satisfies
referential integrity — every foreign-key value of every row refers to
an existing row. -/
theorem referential_integrity :
    (∀ (db : DB) (r : Row) (fk : FKSlot) (i : Nat),
        fk ∈ r.fks → fk.target = some i →
        rowExists (r :: db) fk.targetTable i = false →
        insertRow db r = none) ∧
    (∀ db : DB, Reachable db → Integrity db) :=
  ⟨fun _ _ _ _ hfk ht hne => insertRow_rejects hfk ht hne,
   fun _ h => reachable_integrity h⟩

/-- C5 (witness): inserting a CitationPart whose `source` key points at
the nonexistent Source 3 into the empty store is rejected, and the
two-row state built by inserting a Place and then a Researcher whose
address references it is reachable and has integrity. -/
theorem referential_integrity_witness :
    insertRow []
        { table := "CitationPart", id := 1,
          fks := [{ field := "source", targetTable := "Source",
                    nullable := false, target := some 3 }] } = none ∧
    Integrity [{ table := "Researcher", id := 1,
                 fks := [{ field := "address", targetTable := "Place",
                           nullable := false, target := some 1 }] },
               { table := "Place", id := 1, fks := [] }] := by
  constructor
  · exact referential_integrity.1 _ _
      { field := "source", targetTable := "Source", nullable := false, target := some 3 }
      3 (by decide) rfl (by decide)
  · exact referential_integrity.2 _
      (@Reachable.step [{ table := "Place", id := 1, fks := [] }]
        [{ table := "Researcher", id := 1,
           fks := [{ field := "address", targetTable := "Place",
                     nullable := false, target := some 1 }] },
         { table := "Place", id := 1, fks := [] }]
        (.ins { table := "Researcher", id := 1,
                fks := [{ field := "address", targetTable := "Place",
                          nullable := false, target := some 1 }] })
        (@Reachable.step [] [{ table := "Place", id := 1, fks := [] }]
          (.ins { table := "Place", id := 1, fks := [] })
          Reachable.empty (by decide))
        (by decide))

/-- C6: adding any finite set of (researcher, project) pairs through the
`ResearcherProject` join entity to an initially empty store and then
listing a project's researchers, or a researcher's projects, returns
exactly the added pairs: a researcher is listed for a project if and
only if that pair was added. -/
theorem m2m_roundtrip (pairs : List (Nat × Nat)) (r p : Nat) :
    (r ∈ projectResearchers (addPairs pairs) p ↔ (r, p) ∈ pairs) ∧
    (p ∈ researcherProjects (addPairs pairs) r ↔ (r, p) ∈ pairs) := by
  constructor
  · simp only [projectResearchers, addPairs, List.mem_map, List.mem_filter]
    constructor
    · rintro ⟨l, ⟨⟨⟨a, b⟩, hab, rfl⟩, hp⟩, rfl⟩
      simp only [decide_eq_true_eq] at hp
      subst hp
      exact hab
    · intro h
      exact ⟨{ researcher := r, project := p, role := "" },
        ⟨⟨(r, p), h, rfl⟩, by simp⟩, rfl⟩
  · simp only [researcherProjects, addPairs, List.mem_map, List.mem_filter]
    constructor
    · rintro ⟨l, ⟨⟨⟨a, b⟩, hab, rfl⟩, hr⟩, rfl⟩
      simp only [decide_eq_true_eq] at hr
      subst hr
      exact hab
    · intro h
      exact ⟨{ researcher := r, project := p, role := "" },
        ⟨⟨(r, p), h, rfl⟩, by simp⟩, rfl⟩

/-- C7: the three sort-order fields all carry the `SORT_ORDER_CHOICES`
enumeration, and a value a form stores into any of them — one passing
the choice-field validation — is one of exactly `'A'`, `'D'`, `'N'`. -/
theorem sort_order_fields_enum :
    (placeSortOrderDecl.choices = SORT_ORDER_CHOICES ∧
     characteristicSortOrderDecl.choices = SORT_ORDER_CHOICES ∧
     groupTypeSortOrderDecl.choices = SORT_ORDER_CHOICES) ∧
    ∀ f ∈ [placeSortOrderDecl, characteristicSortOrderDecl, groupTypeSortOrderDecl],
      ∀ v : String, choiceFieldCleanOk f v = true → (v = "A" ∨ v = "D" ∨ v = "N") := by
  refine ⟨⟨rfl, rfl, rfl⟩, ?_⟩
  intro f hf v hv
  fin_cases hf <;>
    · simp only [choiceFieldCleanOk, placeSortOrderDecl, characteristicSortOrderDecl,
        groupTypeSortOrderDecl, SORT_ORDER_CHOICES, List.any_cons, List.any_nil,
        Bool.false_and, Bool.false_or, Bool.or_false, Bool.or_eq_true,
        decide_eq_true_eq] at hv
      tauto

/-- C7 (witness): the validation gate applied to `Place.sort_order` and
the concrete value `"D"`. -/
theorem sort_order_fields_enum_witness :
    ("D" : String) = "A" ∨ ("D" : String) = "D" ∨ ("D" : String) = "N" :=
  sort_order_fields_enum.2 placeSortOrderDecl (by decide) "D" (by decide)

/-- C8: `ResearcherProjectInline` appears in both `ResearcherAdmin.inlines`
and `ProjectAdmin.inlines`, and `SuretySchemePartInline` appears in
`SuretySchemeAdmin.inlines`; the inlines edit `ResearcherProject` and
`SuretySchemePart` rows respectively. -/
theorem admin_inline_config :
    ResearcherProjectInline ∈ ResearcherAdmin_inlines ∧
    ResearcherProjectInline ∈ ProjectAdmin_inlines ∧
    SuretySchemePartInline ∈ SuretySchemeAdmin_inlines ∧
    ResearcherProjectInline.model = "ResearcherProject" ∧
    SuretySchemePartInline.model = "SuretySchemePart" := by
  refine ⟨?_, ?_, ?_, rfl, rfl⟩ <;> exact List.mem_singleton.mpr rfl

/-- C9: both `Search.source` and `Search.repository` are declared
without `blank` or `null`, hence required, and a submitted `Search` form
with an empty source reference fails validation. -/
theorem search_source_repository_required :
    searchSourceDecl.blank = false ∧ searchSourceDecl.null = false ∧
    searchRepositoryDecl.blank = false ∧ searchRepositoryDecl.null = false ∧
    ∀ d : SearchFormData, d.source = none → searchFormCleanOk d = false := by
  refine ⟨rfl, rfl, rfl, rfl, ?_⟩
  intro d h
  simp [searchFormCleanOk, fkFieldCleanOk, h, searchSourceDecl]

/-- C9 (witness): a `Search` form submitted with no source and an
existing repository reference is rejected. -/
theorem search_source_required_witness :
    searchFormCleanOk { source := none, repository := some 1 } = false :=
  search_source_repository_required.2.2.2.2 { source := none, repository := some 1 } rfl

/-- C10: the `content` declaration of `Representation` ends in a
trailing comma and binds a tuple, not a model field, so the model's
fields are exactly `source`, `representation_type`,
`physical_file_code`, `medium` and `comments`, and the excerpt content
is never persisted. -/
theorem representation_content_not_persisted :
    (djangoFields representationClassBody).map Prod.fst =
      ["source", "representation_type", "physical_file_code", "medium", "comments"] ∧
    ClassAttr.mk "content" (.tupleOfFields [{ kind := .fileField }])
      ∈ representationClassBody ∧
    "content" ∉ (djangoFields representationClassBody).map Prod.fst := by
  exact ⟨rfl, by decide, by decide⟩

end ResearchersFriend
